import Mathlib

/-!
Shallow embedding of `src/DataBase/Table.py` (repository `byTreneib/data-base`).

The Python module defines field descriptors (`_Field` and its scalar
subclasses, `_ForeignField` and its four relation subclasses), value
containers (`_FieldValue`, `ForeignFieldValue`), a metaclass `_TableMeta`
that merges the `_fields` dictionaries of the base classes with the new
class body and rebinds relation descriptors, and the `Table` base class with
`__init__` and `__getattribute__`.

Python dictionaries are modelled as association lists with unique keys
(insertion updates in place, lookup takes the first hit).  Python object
identity of relation descriptors is modelled by a numeric `fid`; the mutable
`_source_cls` attribute written by `set_source` lives in an explicit store
(`SchemaState.sources`).  Exceptions are modelled by `Except` with an error
inductive mirroring the exception classes the interpreter would raise.
-/

set_option autoImplicit false

namespace DataBase

/-! ### Python-dict primitives (assoc lists) -/

section Dict

variable {κ : Type} {α β : Type} [DecidableEq κ]

/-- Lookup in a Python dict: the value bound to key `n` (first binding). -/
def dlookup : List (κ × α) → κ → Option α
  | [], _ => Option.none
  | p :: rest, n => if n = p.1 then some p.2 else dlookup rest n

/-- `d[k] = v` on a Python dict: update the existing binding in place, or
append a fresh binding at the end (dict insertion order). -/
def dinsert : List (κ × α) → κ → α → List (κ × α)
  | [], k, v => [(k, v)]
  | p :: rest, k, v => if p.1 = k then (k, v) :: rest else p :: dinsert rest k v

/-- `d.pop(k)` on a Python dict: remove the binding of `k` (first hit). -/
def dremove : List (κ × α) → κ → List (κ × α)
  | [], _ => []
  | p :: rest, k => if p.1 = k then rest else p :: dremove rest k

/-- `{**a, **b}` on Python dicts: entries of `a` updated/extended by `b`. -/
def dmerge (a b : List (κ × α)) : List (κ × α) :=
  b.foldl (fun acc p => dinsert acc p.1 p.2) a

end Dict

/-! ### Values

Python runtime values, as far as the validation kernel inspects them: the
only test the kernel performs is `is None`, so one constructor models `None`
and the rest carry the payloads used in the claims. -/

inductive Value where
  | none
  | int (n : Int)
  | str (s : String)
  | ref (r : Nat)
  | listV (rs : List Nat)
  deriving DecidableEq, Repr

/-- The Python class of a field descriptor. -/
inductive FieldCls where
  | textField
  | integerField
  | realField
  | dateField
  | dateTimeField
  | oneToOneField
  | oneToManyField
  | manyToOneField
  | manyToManyField
  deriving DecidableEq, Repr

/-- `isinstance(field, _ForeignField)` for the nine descriptor classes. -/
def FieldCls.isForeign : FieldCls → Bool
  | .oneToOneField | .oneToManyField | .manyToOneField | .manyToManyField => true
  | _ => false

/-- A field descriptor object.  `cls` is its Python class, `default`,
`allow_null`, `unique` are the `_Field` attributes, `otherCls` is
`_ForeignField._other_cls` (`Option.none` on scalar descriptors), and `fid`
models the descriptor object identity, used by the mutable
`_source_cls` store. -/
structure Field where
  cls : FieldCls
  default : Value
  allow_null : Bool
  unique : Bool
  otherCls : Option Nat
  fid : Nat
  deriving DecidableEq, Repr

/-- Exceptions raised by the module, by raise site. -/
inductive PyErr where
  /-- `AttributeError("Got unexpected parameter ...")` in `Table.__init__`. -/
  | attributeErrorUnexpectedParameter
  /-- `NullConstraintException("Default value cannot be ... if allow_null=...")`
  raised by the four relation descriptor constructors. -/
  | nullConstraintDefault (cls : FieldCls)
  /-- `NullConstraintException("Cannot set field ... if allow_null=...")`
  raised by `_FieldValue.__init__` / `ForeignFieldValue.__init__`. -/
  | nullConstraintSet (cls : FieldCls)
  /-- `TypeError` raised by the interpreter when `Table.__init__` evaluates
  `kwargs.keys()[0]` on line 166: a `dict_keys` view is not subscriptable in
  Python 3, so the intended `AttributeError` message is never built and the
  error carries no key name. -/
  | typeErrorDictKeysNotSubscriptable
  deriving DecidableEq, Repr

/-! ### Descriptor constructors (`_Field.__init__` and subclasses) -/

/-- `_Field.__init__(default, allow_null, unique)`: records the three
attributes, no check.  Scalar descriptors have no target and their identity
is never consulted, so `otherCls` is empty and `fid` is `0`. -/
def _Field.init (cls : FieldCls) (default : Value) (allow_null unique : Bool) : Field :=
  ⟨cls, default, allow_null, unique, Option.none, 0⟩

/-- `_ForeignField.__init__(other, default, allow_null)`: calls
`_Field.__init__(default, allow_null, True)` (unique forced true) and
records the target class; `_source_cls` starts as `None` (no entry in the
source store for a fresh `fid`). -/
def _ForeignField.init (cls : FieldCls) (other : Nat) (default : Value)
    (allow_null : Bool) (fid : Nat) : Field :=
  ⟨cls, default, allow_null, true, some other, fid⟩

/-- `TextField.__init__`: delegates to `_Field.__init__`, never raises. -/
def TextField (default : Value) (allow_null unique : Bool) : Except PyErr Field :=
  Except.ok (_Field.init .textField default allow_null unique)

/-- `IntegerField.__init__`: delegates to `_Field.__init__`, never raises. -/
def IntegerField (default : Value) (allow_null unique : Bool) : Except PyErr Field :=
  Except.ok (_Field.init .integerField default allow_null unique)

/-- `RealField.__init__`: delegates to `_Field.__init__`, never raises. -/
def RealField (default : Value) (allow_null unique : Bool) : Except PyErr Field :=
  Except.ok (_Field.init .realField default allow_null unique)

/-- `DateField.__init__`: delegates to `_Field.__init__`, never raises. -/
def DateField (default : Value) (allow_null unique : Bool) : Except PyErr Field :=
  Except.ok (_Field.init .dateField default allow_null unique)

/-- `DateTimeField.__init__`: delegates to `_Field.__init__`, never raises. -/
def DateTimeField (default : Value) (allow_null unique : Bool) : Except PyErr Field :=
  Except.ok (_Field.init .dateTimeField default allow_null unique)

/-- `OneToOneField.__init__`: builds the descriptor, then raises
`NullConstraintException` if `not allow_null and default is None`. -/
def OneToOneField (other : Nat) (default : Value) (allow_null : Bool)
    (fid : Nat) : Except PyErr Field :=
  let f := _ForeignField.init .oneToOneField other default allow_null fid
  if f.allow_null = false ∧ f.default = Value.none then
    Except.error (PyErr.nullConstraintDefault .oneToOneField)
  else Except.ok f

/-- `OneToManyField.__init__`: same declaration-time null check. -/
def OneToManyField (other : Nat) (default : Value) (allow_null : Bool)
    (fid : Nat) : Except PyErr Field :=
  let f := _ForeignField.init .oneToManyField other default allow_null fid
  if f.allow_null = false ∧ f.default = Value.none then
    Except.error (PyErr.nullConstraintDefault .oneToManyField)
  else Except.ok f

/-- `ManyToOneField.__init__`: same declaration-time null check. -/
def ManyToOneField (other : Nat) (default : Value) (allow_null : Bool)
    (fid : Nat) : Except PyErr Field :=
  let f := _ForeignField.init .manyToOneField other default allow_null fid
  if f.allow_null = false ∧ f.default = Value.none then
    Except.error (PyErr.nullConstraintDefault .manyToOneField)
  else Except.ok f

/-- `ManyToManyField.__init__`: same declaration-time null check. -/
def ManyToManyField (other : Nat) (default : Value) (allow_null : Bool)
    (fid : Nat) : Except PyErr Field :=
  let f := _ForeignField.init .manyToManyField other default allow_null fid
  if f.allow_null = false ∧ f.default = Value.none then
    Except.error (PyErr.nullConstraintDefault .manyToManyField)
  else Except.ok f

/-! ### Value containers -/

/-- A `_FieldValue` object: the validated wrapper around the resolved value of one scalar field. -/
structure _FieldValue where
  field : Field
  value : Value
  deriving DecidableEq, Repr

/-- A `ForeignFieldValue` object.  Note: in the source this class does NOT
inherit from `_FieldValue`; it is a distinct Python class with the same
constructor body, which matters for the `isinstance` test in
`Table.__getattribute__`. -/
structure ForeignFieldValue where
  field : Field
  value : Value
  deriving DecidableEq, Repr

/-- `_FieldValue.__init__(field, value=None, use_default=False)`:
resolve the value (the default when `use_default`), then raise
`NullConstraintException` if the resolved value is `None` while the
descriptor forbids nulls. -/
def _FieldValue.init (field : Field) (value : Value) (use_default : Bool) :
    Except PyErr _FieldValue :=
  let v := if use_default then field.default else value
  if v = Value.none ∧ field.allow_null = false then
    Except.error (PyErr.nullConstraintSet field.cls)
  else Except.ok ⟨field, v⟩

/-- `ForeignFieldValue.__init__(field, value=None, use_default=False)`:
identical body to `_FieldValue.__init__`. -/
def ForeignFieldValue.init (field : Field) (value : Value) (use_default : Bool) :
    Except PyErr ForeignFieldValue :=
  let v := if use_default then field.default else value
  if v = Value.none ∧ field.allow_null = false then
    Except.error (PyErr.nullConstraintSet field.cls)
  else Except.ok ⟨field, v⟩

/-! ### Instance attributes and `__getattribute__` -/

/-- A Python object as stored in an attribute slot: a plain value, a
`_FieldValue` container, or a `ForeignFieldValue` container (the latter two
are distinct classes, which `isinstance` distinguishes). -/
inductive PyObj where
  | val (v : Value)
  | fieldValueObj (c : _FieldValue)
  | foreignFieldValueObj (c : ForeignFieldValue)
  deriving DecidableEq, Repr

/-- The body of `Table.__getattribute__` after the raw lookup: return
`value.value` when `isinstance(value, _FieldValue)`, the object unchanged
otherwise (`ForeignFieldValue` is NOT an instance of `_FieldValue`). -/
def unwrapFieldValue : PyObj → PyObj
  | .fieldValueObj c => .val c.value
  | o => o

/-- `Table.__getattribute__(self, item)`: `object.__getattribute__` finds
the attribute (instance dict first, then the class dict; `AttributeError`,
modelled as `Option.none`, when absent), then the `_FieldValue` unwrap is
applied to whatever was found. -/
def Table.getattribute (inst cls : List (String × PyObj)) (item : String) :
    Option PyObj :=
  match dlookup inst item with
  | some o => some (unwrapFieldValue o)
  | Option.none => (dlookup cls item).map unwrapFieldValue

/-! ### `Table.__init__` -/

/-- The `for field_name, field in self.fields().items()` loop of
`Table.__init__`: for each field, build a `ForeignFieldValue` or
`_FieldValue` from the supplied keyword value (popping it) or from the
default, and `setattr` it on the instance; any `NullConstraintException`
propagates. -/
def processFields :
    List (String × Field) → List (String × PyObj) → List (String × Value) →
    Except PyErr (List (String × PyObj) × List (String × Value))
  | [], inst, kwargs => Except.ok (inst, kwargs)
  | (fname, f) :: rest, inst, kwargs =>
    match dlookup kwargs fname with
    | some v =>
      if f.cls.isForeign then
        match ForeignFieldValue.init f v false with
        | Except.error e => Except.error e
        | Except.ok c =>
          processFields rest (dinsert inst fname (PyObj.foreignFieldValueObj c))
            (dremove kwargs fname)
      else
        match _FieldValue.init f v false with
        | Except.error e => Except.error e
        | Except.ok c =>
          processFields rest (dinsert inst fname (PyObj.fieldValueObj c))
            (dremove kwargs fname)
    | Option.none =>
      if f.cls.isForeign then
        match ForeignFieldValue.init f Value.none true with
        | Except.error e => Except.error e
        | Except.ok c =>
          processFields rest (dinsert inst fname (PyObj.foreignFieldValueObj c)) kwargs
      else
        match _FieldValue.init f Value.none true with
        | Except.error e => Except.error e
        | Except.ok c =>
          processFields rest (dinsert inst fname (PyObj.fieldValueObj c)) kwargs

/-- `Table.__init__(self, *args, **kwargs)` for an entity class whose
resolved `_fields` dict is `fields` and whose current `_count` is `count`.
Returns the outcome (the instance dict on success) together with the class
counter after the call.  Faithful order: `_count` is incremented first; a
positional argument raises `AttributeError`; the field loop runs; leftover
keyword names reach `kwargs.keys()[0]`, which raises `TypeError` in
Python 3 before the `AttributeError` there can be built. -/
def Table.init (fields : List (String × Field)) (count : Nat)
    (args : List Value) (kwargs : List (String × Value)) :
    Except PyErr (List (String × PyObj)) × Nat :=
  let count1 := count + 1
  match args with
  | _ :: _ => (Except.error PyErr.attributeErrorUnexpectedParameter, count1)
  | [] =>
    match processFields fields [] kwargs with
    | Except.error e => (Except.error e, count1)
    | Except.ok (inst, leftover) =>
      match leftover with
      | [] => (Except.ok inst, count1)
      | _ :: _ => (Except.error PyErr.typeErrorDictKeysNotSubscriptable, count1)

/-! ### `_TableMeta.__new__` (the schema composer) -/

/-- An entry of a class body (`attrs`): a field descriptor or any other
attribute (method, constant). -/
inductive ClassAttr where
  | field (f : Field)
  | plain (o : PyObj)
  deriving DecidableEq, Repr

/-- An entity class after `_TableMeta.__new__`: its identity, its resolved
`_fields` dict, and the non-field attributes carried through. -/
structure TableClass where
  cid : Nat
  fields : List (String × Field)
  plainAttrs : List (String × PyObj)
  deriving DecidableEq, Repr

/-- The `for base in bases: base_attrs = {**base_attrs, **base._fields}`
loop: merge the resolved field dicts of the bases left to right, later bases
overriding earlier ones. -/
def mergeBaseFields (bases : List TableClass) : List (String × Field) :=
  bases.foldl (fun acc b => dmerge acc b.fields) []

/-- Keep only the `_Field`-valued entries of a merged attribute dict
(the filter in the `_fields` comprehension). -/
def fieldsOfAttrs (l : List (String × ClassAttr)) : List (String × Field) :=
  l.filterMap fun p =>
    match p.2 with
    | ClassAttr.field f => some (p.1, f)
    | ClassAttr.plain _ => Option.none

/-- `{key: value for key, value in {**base_attrs, **attrs}.items() if
isinstance(value, _Field)}`: the resolved `_fields` dict of the new class. -/
def resolveFields (bases : List TableClass) (attrs : List (String × ClassAttr)) :
    List (String × Field) :=
  fieldsOfAttrs
    (dmerge ((mergeBaseFields bases).map fun p => (p.1, ClassAttr.field p.2)) attrs)

/-- The pass-through loop of `_TableMeta.__new__`: every non-`_Field`
attribute of the class body is copied into the new class, except the key
`"_fields"`, which `new_attrs` already holds (class-body keys are unique, so
the growing `key not in new_attrs` check excludes nothing else). -/
def passThrough (attrs : List (String × ClassAttr)) : List (String × PyObj) :=
  attrs.filterMap fun p =>
    match p.2 with
    | ClassAttr.plain o => if p.1 = "_fields" then Option.none else some (p.1, o)
    | ClassAttr.field _ => Option.none

/-- Mutable schema-level state: the next fresh class identity and the store
backing `_ForeignField._source_cls` (descriptor identity `fid` to the class
identity last written by `set_source`). -/
structure SchemaState where
  nextCid : Nat
  sources : List (Nat × Nat)
  deriving DecidableEq, Repr

/-- The `for field in new_attrs["_fields"].values(): if isinstance(field,
_ForeignField): field.set_source(newCls)` loop: write the new class into the
source slot of every relation descriptor of the resolved field set. -/
def bindSources (flds : List (String × Field)) (cid : Nat)
    (src : List (Nat × Nat)) : List (Nat × Nat) :=
  flds.foldl (fun s p => if p.2.cls.isForeign then dinsert s p.2.fid cid else s) src

/-- `_TableMeta.__new__(mcs, name, bases, attrs)`: resolve the field set,
create the class (fresh identity, resolved fields, pass-through attrs), then
rebind the source of every relation descriptor in the resolved set to the
new class. -/
def defineClass (st : SchemaState) (bases : List TableClass)
    (attrs : List (String × ClassAttr)) : SchemaState × TableClass :=
  let flds := resolveFields bases attrs
  let cls : TableClass := ⟨st.nextCid, flds, passThrough attrs⟩
  (⟨st.nextCid + 1, bindSources flds cls.cid st.sources⟩, cls)

/-! ### The `Table` base class -/

/-- The `_id = IntegerField(unique=True)` descriptor of the `Table` body. -/
def idField : Field := _Field.init .integerField Value.none true true

/-- The resolved `_fields` dict of the `Table` base class itself:
`Table` is created with no bases, so its only field is `_id`. -/
def Table_fields : List (String × Field) := [("_id", idField)]

/-! ### Lemmas about the dict primitives -/

section DictLemmas

variable {κ : Type} {α β : Type} [DecidableEq κ]

theorem dlookup_dinsert (d : List (κ × α)) (k : κ) (v : α) (n : κ) :
    dlookup (dinsert d k v) n = if n = k then some v else dlookup d n := by
  induction d with
  | nil => simp [dinsert, dlookup]
  | cons p rest ih =>
    rw [dinsert]
    by_cases hpk : p.1 = k
    · rw [if_pos hpk]
      by_cases hnk : n = k
      · simp [dlookup, hnk]
      · simp [dlookup, hnk, hpk]
    · rw [if_neg hpk]
      rw [dlookup, dlookup, ih]
      by_cases hnp : n = p.1
      · have hnk : ¬ n = k := by rw [hnp]; exact hpk
        simp [hnp, hnk, hpk]
      · simp [hnp]

theorem dlookup_eq_none (d : List (κ × α)) (n : κ) :
    dlookup d n = Option.none ↔ ∀ q ∈ d, q.1 ≠ n := by
  induction d with
  | nil => simp [dlookup]
  | cons p rest ih =>
    constructor
    · intro h q hq
      rw [dlookup] at h
      by_cases hnp : n = p.1
      · rw [if_pos hnp] at h
        exact absurd h (by simp)
      · rw [if_neg hnp] at h
        rcases List.mem_cons.mp hq with rfl | hq2
        · exact fun e => hnp e.symm
        · exact (ih.mp h) q hq2
    · intro h
      rw [dlookup]
      have hnp : ¬ n = p.1 := fun e => h p (List.mem_cons_self p rest) e.symm
      rw [if_neg hnp]
      exact ih.mpr fun q hq => h q (List.mem_cons_of_mem p hq)

theorem dlookup_mem {d : List (κ × α)} {n : κ} {v : α} (h : dlookup d n = some v) :
    (n, v) ∈ d := by
  induction d with
  | nil => simp [dlookup] at h
  | cons p rest ih =>
    obtain ⟨a, b⟩ := p
    rw [dlookup] at h
    by_cases hna : n = a
    · subst hna
      rw [if_pos rfl] at h
      injection h with h
      subst h
      exact List.mem_cons_self _ _
    · rw [if_neg hna] at h
      exact List.mem_cons_of_mem _ (ih h)

theorem dlookup_of_mem_nodup {d : List (κ × α)} {n : κ} {v : α}
    (hnd : (d.map Prod.fst).Nodup) (h : (n, v) ∈ d) : dlookup d n = some v := by
  induction d with
  | nil => simp at h
  | cons p rest ih =>
    obtain ⟨a, b⟩ := p
    simp only [List.map_cons, List.nodup_cons] at hnd
    rcases List.mem_cons.mp h with heq | hmem
    · cases heq
      rw [dlookup, if_pos rfl]
    · have hna : ¬ n = a := by
        intro e
        subst e
        exact hnd.1 (List.mem_map.mpr ⟨(n, v), hmem, rfl⟩)
      rw [dlookup, if_neg hna]
      exact ih hnd.2 hmem

theorem dremove_sublist (d : List (κ × α)) (k : κ) : (dremove d k).Sublist d := by
  induction d with
  | nil => simp [dremove]
  | cons p rest ih =>
    rw [dremove]
    split
    · exact List.sublist_cons_self p rest
    · exact ih.cons₂ p

theorem mem_dremove {d : List (κ × α)} {k : κ} {q : κ × α} (h : q ∈ dremove d k) :
    q ∈ d :=
  (dremove_sublist d k).subset h

theorem nodup_keys_dremove {d : List (κ × α)} (hnd : (d.map Prod.fst).Nodup) (k : κ) :
    ((dremove d k).map Prod.fst).Nodup :=
  hnd.sublist ((dremove_sublist d k).map Prod.fst)

theorem dlookup_dremove {d : List (κ × α)} (hnd : (d.map Prod.fst).Nodup) (k n : κ) :
    dlookup (dremove d k) n = if n = k then Option.none else dlookup d n := by
  induction d with
  | nil => simp [dremove, dlookup]
  | cons p rest ih =>
    obtain ⟨a, b⟩ := p
    simp only [List.map_cons, List.nodup_cons] at hnd
    rw [dremove]
    by_cases hak : a = k
    · rw [if_pos hak]
      subst hak
      by_cases hna : n = a
      · subst hna
        rw [if_pos rfl]
        exact (dlookup_eq_none rest n).mpr fun q hq e => hnd.1 (List.mem_map.mpr ⟨q, hq, e⟩)
      · rw [if_neg hna, dlookup, if_neg hna]
    · rw [if_neg hak, dlookup, dlookup, ih hnd.2]
      by_cases hna : n = a
      · have hnk : ¬ n = k := by rw [hna]; exact hak
        simp [hna, hnk, hak]
      · simp [hna]

theorem keys_dinsert (d : List (κ × α)) (k : κ) (v : α) :
    (dinsert d k v).map Prod.fst =
      if (dlookup d k).isSome then d.map Prod.fst else d.map Prod.fst ++ [k] := by
  induction d with
  | nil => simp [dinsert, dlookup]
  | cons p rest ih =>
    obtain ⟨a, b⟩ := p
    rw [dinsert]
    by_cases hak : a = k
    · subst hak
      rw [if_pos rfl]
      have : dlookup ((a, b) :: rest) a = some b := by rw [dlookup, if_pos rfl]
      simp [this]
    · rw [if_neg hak]
      have hka : ¬ k = a := fun e => hak e.symm
      have : dlookup ((a, b) :: rest) k = dlookup rest k := by rw [dlookup, if_neg hka]
      simp only [List.map_cons, ih, this]
      split <;> simp

theorem nodup_keys_dinsert {d : List (κ × α)} (hnd : (d.map Prod.fst).Nodup)
    (k : κ) (v : α) : ((dinsert d k v).map Prod.fst).Nodup := by
  rw [keys_dinsert]
  split
  · exact hnd
  · next h =>
    have hnone : dlookup d k = Option.none := by
      cases hc : dlookup d k
      · rfl
      · rw [hc] at h
        simp at h
    have hk : k ∉ d.map Prod.fst := by
      intro hmem
      rcases List.mem_map.mp hmem with ⟨q, hq, rfl⟩
      exact (dlookup_eq_none d q.1).mp hnone q hq rfl
    simp [List.nodup_append, hnd, hk, List.disjoint_singleton]

theorem dlookup_dmerge (a b : List (κ × α)) (n : κ) (hb : (b.map Prod.fst).Nodup) :
    dlookup (dmerge a b) n = (dlookup b n).or (dlookup a n) := by
  induction b generalizing a with
  | nil => simp [dmerge, dlookup, Option.or]
  | cons p rest ih =>
    obtain ⟨k, v⟩ := p
    simp only [List.map_cons, List.nodup_cons] at hb
    have hstep : dmerge a ((k, v) :: rest) = dmerge (dinsert a k v) rest := rfl
    rw [hstep, ih _ hb.2, dlookup]
    by_cases hnk : n = k
    · subst hnk
      have hnone : dlookup rest n = Option.none :=
        (dlookup_eq_none rest n).mpr fun q hq e => hb.1 (List.mem_map.mpr ⟨q, hq, e⟩)
      simp [hnone, dlookup_dinsert, Option.or]
    · rw [if_neg hnk]
      cases h : dlookup rest n <;> simp [h, dlookup_dinsert, hnk, Option.or]

theorem nodup_keys_dmerge (a b : List (κ × α)) (ha : (a.map Prod.fst).Nodup) :
    ((dmerge a b).map Prod.fst).Nodup := by
  induction b generalizing a with
  | nil => exact ha
  | cons p rest ih => exact ih _ (nodup_keys_dinsert ha p.1 p.2)

theorem dlookup_map_snd (g : α → β) (d : List (κ × α)) (n : κ) :
    dlookup (d.map fun p => (p.1, g p.2)) n = (dlookup d n).map g := by
  induction d with
  | nil => simp [dlookup]
  | cons p rest ih =>
    simp only [List.map_cons, dlookup]
    by_cases hnp : n = p.1 <;> simp [hnp, ih]

theorem dlookup_cons_self {p : κ × α} {rest : List (κ × α)} {n : κ} (h : n = p.1) :
    dlookup (p :: rest) n = some p.2 := by
  rw [dlookup, if_pos h]

theorem dlookup_cons_ne {p : κ × α} {rest : List (κ × α)} {n : κ} (h : ¬ n = p.1) :
    dlookup (p :: rest) n = dlookup rest n := by
  rw [dlookup, if_neg h]

theorem keys_mem_dremove_ne {d : List (κ × α)} (hnd : (d.map Prod.fst).Nodup)
    {k : κ} {q : κ × α} (hq : q ∈ dremove d k) : q.1 ≠ k := by
  intro e
  have h0 : dlookup (dremove d k) k = Option.none := by
    rw [dlookup_dremove hnd, if_pos rfl]
  exact (dlookup_eq_none _ _).mp h0 q hq e

end DictLemmas

theorem keys_map_snd {κ α β : Type} (g : α → β) (d : List (κ × α)) :
    ((d.map fun p => (p.1, g p.2)).map Prod.fst) = d.map Prod.fst := by
  induction d with
  | nil => rfl
  | cons p rest ih => simp [ih]

/-! ### Lemmas about the schema composer -/

theorem fieldsOfAttrs_cons_field (a : String) (f : Field)
    (rest : List (String × ClassAttr)) :
    fieldsOfAttrs ((a, ClassAttr.field f) :: rest) = (a, f) :: fieldsOfAttrs rest := by
  simp [fieldsOfAttrs]

theorem fieldsOfAttrs_cons_plain (a : String) (o : PyObj)
    (rest : List (String × ClassAttr)) :
    fieldsOfAttrs ((a, ClassAttr.plain o) :: rest) = fieldsOfAttrs rest := by
  simp [fieldsOfAttrs]

theorem dlookup_fieldsOfAttrs_of_none {l : List (String × ClassAttr)} {n : String}
    (h : dlookup l n = Option.none) : dlookup (fieldsOfAttrs l) n = Option.none := by
  induction l with
  | nil => rfl
  | cons p rest ih =>
    obtain ⟨a, b⟩ := p
    by_cases hna : n = a
    · rw [dlookup_cons_self hna] at h
      exact absurd h (by simp)
    · rw [dlookup_cons_ne hna] at h
      cases b with
      | field f => rw [fieldsOfAttrs_cons_field, dlookup_cons_ne hna]; exact ih h
      | plain o => rw [fieldsOfAttrs_cons_plain]; exact ih h

theorem dlookup_fieldsOfAttrs {l : List (String × ClassAttr)}
    (hnd : (l.map Prod.fst).Nodup) (n : String) :
    dlookup (fieldsOfAttrs l) n =
      match dlookup l n with
      | some (ClassAttr.field f) => some f
      | some (ClassAttr.plain _) => Option.none
      | Option.none => Option.none := by
  induction l with
  | nil => simp [fieldsOfAttrs, dlookup]
  | cons p rest ih =>
    obtain ⟨a, b⟩ := p
    simp only [List.map_cons, List.nodup_cons] at hnd
    by_cases hna : n = a
    · have hsc : dlookup ((a, b) :: rest) n = some b := dlookup_cons_self hna
      rw [hsc]
      cases b with
      | field f => rw [fieldsOfAttrs_cons_field, dlookup_cons_self hna]
      | plain o =>
        rw [fieldsOfAttrs_cons_plain]
        have hnone : dlookup rest n = Option.none := by
          subst hna
          exact (dlookup_eq_none rest n).mpr fun q hq e =>
            hnd.1 (List.mem_map.mpr ⟨q, hq, e⟩)
        rw [dlookup_fieldsOfAttrs_of_none hnone]
    · have hsc : dlookup ((a, b) :: rest) n = dlookup rest n := dlookup_cons_ne hna
      rw [hsc]
      cases b with
      | field f => rw [fieldsOfAttrs_cons_field, dlookup_cons_ne hna]; exact ih hnd.2
      | plain o => rw [fieldsOfAttrs_cons_plain]; exact ih hnd.2

theorem nodup_keys_mergeBaseFields (bases : List TableClass) :
    ((mergeBaseFields bases).map Prod.fst).Nodup := by
  suffices h : ∀ acc : List (String × Field), (acc.map Prod.fst).Nodup →
      ((bases.foldl (fun acc b => dmerge acc b.fields) acc).map Prod.fst).Nodup by
    exact h [] (by simp)
  induction bases with
  | nil => exact fun acc hacc => hacc
  | cons b rest ih => exact fun acc hacc => ih _ (nodup_keys_dmerge _ _ hacc)

theorem mergeBaseFields_append (bs : List TableClass) (b : TableClass) :
    mergeBaseFields (bs ++ [b]) = dmerge (mergeBaseFields bs) b.fields := by
  simp [mergeBaseFields, List.foldl_append]

theorem dlookup_resolveFields (bases : List TableClass)
    (attrs : List (String × ClassAttr)) (hnd : (attrs.map Prod.fst).Nodup)
    (n : String) :
    dlookup (resolveFields bases attrs) n =
      match dlookup attrs n with
      | some (ClassAttr.field f) => some f
      | some (ClassAttr.plain _) => Option.none
      | Option.none => dlookup (mergeBaseFields bases) n := by
  have hmk : (((mergeBaseFields bases).map fun p =>
      (p.1, ClassAttr.field p.2)).map Prod.fst).Nodup := by
    rw [keys_map_snd]
    exact nodup_keys_mergeBaseFields bases
  have hcomb := nodup_keys_dmerge _ attrs hmk
  rw [resolveFields, dlookup_fieldsOfAttrs hcomb, dlookup_dmerge _ _ _ hnd,
    dlookup_map_snd]
  cases h : dlookup attrs n with
  | some a => cases a <;> simp [Option.or]
  | none =>
    cases h2 : dlookup (mergeBaseFields bases) n <;> simp [Option.or]

/-! ### Lemmas about `set_source` rebinding -/

theorem bindSources_cons (p : String × Field) (rest : List (String × Field))
    (cid : Nat) (src : List (Nat × Nat)) :
    bindSources (p :: rest) cid src =
      bindSources rest cid (if p.2.cls.isForeign then dinsert src p.2.fid cid else src) := by
  rw [bindSources, bindSources, List.foldl_cons]

theorem dlookup_bindSources_stable {flds : List (String × Field)} {cid : Nat}
    {src : List (Nat × Nat)} {k : Nat} (h : dlookup src k = some cid) :
    dlookup (bindSources flds cid src) k = some cid := by
  induction flds generalizing src with
  | nil => exact h
  | cons p rest ih =>
    rw [bindSources_cons]
    by_cases hfor : p.2.cls.isForeign
    · rw [if_pos hfor]
      apply ih
      rw [dlookup_dinsert]
      split
      · rfl
      · exact h
    · rw [if_neg hfor]
      exact ih h

theorem dlookup_bindSources_of_mem {flds : List (String × Field)} {n : String}
    {f : Field} (hmem : (n, f) ∈ flds) (hfor : f.cls.isForeign = true) (cid : Nat)
    (src : List (Nat × Nat)) :
    dlookup (bindSources flds cid src) f.fid = some cid := by
  induction flds generalizing src with
  | nil => simp at hmem
  | cons p rest ih =>
    rw [bindSources_cons]
    rcases List.mem_cons.mp hmem with heq | hmem2
    · rw [← heq]
      rw [if_pos hfor]
      exact dlookup_bindSources_stable (by rw [dlookup_dinsert, if_pos rfl])
    · exact ih hmem2 _

/-! ### Characterization of `Table.__init__` -/

/-- The value a field resolves to during construction: the caller-supplied
keyword value, or the descriptor default when the name was omitted. -/
def resolvedValue (kwargs : List (String × Value)) (n : String) (f : Field) : Value :=
  match dlookup kwargs n with
  | some v => v
  | Option.none => f.default

/-- The null-constraint check of the container constructors, phrased on the
resolved value: `false` exactly when container construction raises. -/
def containerOk (kwargs : List (String × Value)) (n : String) (f : Field) : Bool :=
  if resolvedValue kwargs n f = Value.none then f.allow_null else true

/-- The container object `Table.__init__` stores for field `n`: a
`ForeignFieldValue` for relation descriptors, a `_FieldValue` otherwise,
wrapping the resolved value. -/
def expectedObj (kwargs : List (String × Value)) (n : String) (f : Field) : PyObj :=
  if f.cls.isForeign then
    PyObj.foreignFieldValueObj ⟨f, resolvedValue kwargs n f⟩
  else
    PyObj.fieldValueObj ⟨f, resolvedValue kwargs n f⟩

theorem expectedObj_congr {kw1 kw2 : List (String × Value)} {n : String} (f : Field)
    (h : dlookup kw1 n = dlookup kw2 n) : expectedObj kw1 n f = expectedObj kw2 n f := by
  simp [expectedObj, resolvedValue, h]

theorem containerOk_congr {kw1 kw2 : List (String × Value)} {n : String} (f : Field)
    (h : dlookup kw1 n = dlookup kw2 n) : containerOk kw1 n f = containerOk kw2 n f := by
  simp [containerOk, resolvedValue, h]

theorem containerOk_not_null {kwargs : List (String × Value)} {n : String} {f : Field}
    (hok : containerOk kwargs n f = true) :
    ¬(resolvedValue kwargs n f = Value.none ∧ f.allow_null = false) := by
  rintro ⟨h1, h2⟩
  rw [containerOk, if_pos h1, h2] at hok
  exact Bool.false_ne_true hok

theorem fieldValue_init_ok {f : Field} {v : Value} {ud : Bool} {c : _FieldValue}
    (h : _FieldValue.init f v ud = Except.ok c) :
    c = ⟨f, if ud then f.default else v⟩ := by
  simp only [_FieldValue.init] at h
  by_cases hc : (if ud then f.default else v) = Value.none ∧ f.allow_null = false
  · rw [if_pos hc] at h
    exact absurd h (by simp)
  · rw [if_neg hc] at h
    injection h with h
    exact h.symm

theorem foreignFieldValue_init_ok {f : Field} {v : Value} {ud : Bool}
    {c : ForeignFieldValue} (h : ForeignFieldValue.init f v ud = Except.ok c) :
    c = ⟨f, if ud then f.default else v⟩ := by
  simp only [ForeignFieldValue.init] at h
  by_cases hc : (if ud then f.default else v) = Value.none ∧ f.allow_null = false
  · rw [if_pos hc] at h
    exact absurd h (by simp)
  · rw [if_neg hc] at h
    injection h with h
    exact h.symm

theorem processFields_cons_supplied {fname : String} {f : Field}
    {rest : List (String × Field)} {inst0 : List (String × PyObj)}
    {kwargs : List (String × Value)} {v : Value}
    (hk : dlookup kwargs fname = some v) :
    processFields ((fname, f) :: rest) inst0 kwargs =
      if f.cls.isForeign then
        match ForeignFieldValue.init f v false with
        | Except.error e => Except.error e
        | Except.ok c =>
          processFields rest (dinsert inst0 fname (PyObj.foreignFieldValueObj c))
            (dremove kwargs fname)
      else
        match _FieldValue.init f v false with
        | Except.error e => Except.error e
        | Except.ok c =>
          processFields rest (dinsert inst0 fname (PyObj.fieldValueObj c))
            (dremove kwargs fname) := by
  rw [processFields, hk]

theorem processFields_cons_omitted {fname : String} {f : Field}
    {rest : List (String × Field)} {inst0 : List (String × PyObj)}
    {kwargs : List (String × Value)} (hk : dlookup kwargs fname = Option.none) :
    processFields ((fname, f) :: rest) inst0 kwargs =
      if f.cls.isForeign then
        match ForeignFieldValue.init f Value.none true with
        | Except.error e => Except.error e
        | Except.ok c =>
          processFields rest (dinsert inst0 fname (PyObj.foreignFieldValueObj c)) kwargs
      else
        match _FieldValue.init f Value.none true with
        | Except.error e => Except.error e
        | Except.ok c =>
          processFields rest (dinsert inst0 fname (PyObj.fieldValueObj c)) kwargs := by
  rw [processFields, hk]

theorem fieldValue_init_eq_ok {f : Field} {v : Value} {ud : Bool}
    (h : ¬((if ud then f.default else v) = Value.none ∧ f.allow_null = false)) :
    _FieldValue.init f v ud = Except.ok ⟨f, if ud then f.default else v⟩ := by
  simp only [_FieldValue.init]
  rw [if_neg h]

theorem foreignFieldValue_init_eq_ok {f : Field} {v : Value} {ud : Bool}
    (h : ¬((if ud then f.default else v) = Value.none ∧ f.allow_null = false)) :
    ForeignFieldValue.init f v ud = Except.ok ⟨f, if ud then f.default else v⟩ := by
  simp only [ForeignFieldValue.init]
  rw [if_neg h]

theorem processFields_ok_lookup {fields : List (String × Field)}
    {inst0 inst : List (String × PyObj)} {kwargs leftover : List (String × Value)}
    (hnd : (fields.map Prod.fst).Nodup) (hkwnd : (kwargs.map Prod.fst).Nodup)
    (h : processFields fields inst0 kwargs = Except.ok (inst, leftover)) (n : String) :
    dlookup inst n =
      match dlookup fields n with
      | some f => some (expectedObj kwargs n f)
      | Option.none => dlookup inst0 n := by
  induction fields generalizing inst0 kwargs with
  | nil =>
    rw [processFields] at h
    injection h with h
    injection h with h1 h2
    subst h1
    simp [dlookup]
  | cons p rest ih =>
    obtain ⟨fname, f⟩ := p
    simp only [List.map_cons, List.nodup_cons] at hnd
    have hrestnone : n = fname → dlookup rest n = Option.none := by
      intro e
      subst e
      exact (dlookup_eq_none rest n).mpr fun q hq e2 =>
        hnd.1 (List.mem_map.mpr ⟨q, hq, e2⟩)
    cases hk : dlookup kwargs fname with
    | some v =>
      rw [processFields_cons_supplied hk] at h
      have hkw2 : ((dremove kwargs fname).map Prod.fst).Nodup :=
        nodup_keys_dremove hkwnd fname
      have hkdr : ∀ m, ¬ m = fname →
          dlookup (dremove kwargs fname) m = dlookup kwargs m := by
        intro m hm
        rw [dlookup_dremove hkwnd, if_neg hm]
      by_cases hfor : f.cls.isForeign
      · rw [if_pos hfor] at h
        cases hc : ForeignFieldValue.init f v false with
        | error e =>
          rw [hc] at h
          simp at h
        | ok c =>
          rw [hc] at h
          have hcv : c = ⟨f, v⟩ := by
            have h2 := foreignFieldValue_init_ok hc
            simpa using h2
          have hmain := ih hnd.2 hkw2 h
          rw [hmain]
          by_cases hn : n = fname
          · subst hn
            rw [hrestnone rfl, dlookup_cons_self rfl, dlookup_dinsert, if_pos rfl]
            simp [hcv, expectedObj, hfor, resolvedValue, hk]
          · rw [dlookup_cons_ne hn, dlookup_dinsert, if_neg hn]
            cases hr : dlookup rest n with
            | some g => simp [expectedObj_congr g (hkdr n hn)]
            | none => rfl
      · rw [if_neg hfor] at h
        cases hc : _FieldValue.init f v false with
        | error e =>
          rw [hc] at h
          simp at h
        | ok c =>
          rw [hc] at h
          have hcv : c = ⟨f, v⟩ := by
            have h2 := fieldValue_init_ok hc
            simpa using h2
          have hmain := ih hnd.2 hkw2 h
          rw [hmain]
          by_cases hn : n = fname
          · subst hn
            rw [hrestnone rfl, dlookup_cons_self rfl, dlookup_dinsert, if_pos rfl]
            simp [hcv, expectedObj, hfor, resolvedValue, hk]
          · rw [dlookup_cons_ne hn, dlookup_dinsert, if_neg hn]
            cases hr : dlookup rest n with
            | some g => simp [expectedObj_congr g (hkdr n hn)]
            | none => rfl
    | none =>
      rw [processFields_cons_omitted hk] at h
      by_cases hfor : f.cls.isForeign
      · rw [if_pos hfor] at h
        cases hc : ForeignFieldValue.init f Value.none true with
        | error e =>
          rw [hc] at h
          simp at h
        | ok c =>
          rw [hc] at h
          have hcv : c = ⟨f, f.default⟩ := by
            have h2 := foreignFieldValue_init_ok hc
            simpa using h2
          have hmain := ih hnd.2 hkwnd h
          rw [hmain]
          by_cases hn : n = fname
          · subst hn
            rw [hrestnone rfl, dlookup_cons_self rfl, dlookup_dinsert, if_pos rfl]
            simp [hcv, expectedObj, hfor, resolvedValue, hk]
          · rw [dlookup_cons_ne hn, dlookup_dinsert, if_neg hn]
      · rw [if_neg hfor] at h
        cases hc : _FieldValue.init f Value.none true with
        | error e =>
          rw [hc] at h
          simp at h
        | ok c =>
          rw [hc] at h
          have hcv : c = ⟨f, f.default⟩ := by
            have h2 := fieldValue_init_ok hc
            simpa using h2
          have hmain := ih hnd.2 hkwnd h
          rw [hmain]
          by_cases hn : n = fname
          · subst hn
            rw [hrestnone rfl, dlookup_cons_self rfl, dlookup_dinsert, if_pos rfl]
            simp [hcv, expectedObj, hfor, resolvedValue, hk]
          · rw [dlookup_cons_ne hn, dlookup_dinsert, if_neg hn]

theorem processFields_ok_total {fields : List (String × Field)}
    (inst0 : List (String × PyObj)) {kwargs : List (String × Value)}
    (hnd : (fields.map Prod.fst).Nodup) (hkwnd : (kwargs.map Prod.fst).Nodup)
    (hok : ∀ p ∈ fields, containerOk kwargs p.1 p.2 = true)
    (hkw : ∀ q ∈ kwargs, (dlookup fields q.1).isSome) :
    ∃ inst, processFields fields inst0 kwargs = Except.ok (inst, []) := by
  induction fields generalizing inst0 kwargs with
  | nil =>
    cases kwargs with
    | nil => exact ⟨inst0, rfl⟩
    | cons q qs =>
      have hq := hkw q (List.mem_cons_self q qs)
      simp [dlookup] at hq
  | cons p rest ih =>
    obtain ⟨fname, f⟩ := p
    simp only [List.map_cons, List.nodup_cons] at hnd
    have hokf : containerOk kwargs fname f = true :=
      hok (fname, f) (List.mem_cons_self _ _)
    cases hk : dlookup kwargs fname with
    | some v =>
      have hres : resolvedValue kwargs fname f = v := by
        simp [resolvedValue, hk]
      have hnn : ¬(v = Value.none ∧ f.allow_null = false) := by
        have h0 := containerOk_not_null hokf
        rw [hres] at h0
        exact h0
      have hok2 : ∀ q ∈ rest, containerOk (dremove kwargs fname) q.1 q.2 = true := by
        intro q hq
        have hne : ¬ q.1 = fname := fun e =>
          hnd.1 (List.mem_map.mpr ⟨q, hq, e⟩)
        have hdl : dlookup (dremove kwargs fname) q.1 = dlookup kwargs q.1 := by
          rw [dlookup_dremove hkwnd, if_neg hne]
        rw [containerOk_congr q.2 hdl]
        exact hok q (List.mem_cons_of_mem _ hq)
      have hkw2 : ∀ q ∈ dremove kwargs fname, (dlookup rest q.1).isSome := by
        intro q hq
        have hqk : q ∈ kwargs := mem_dremove hq
        have hqne : ¬ q.1 = fname := keys_mem_dremove_ne hkwnd hq
        have hq2 := hkw q hqk
        rw [dlookup_cons_ne hqne] at hq2
        exact hq2
      by_cases hfor : f.cls.isForeign
      · have hco : ForeignFieldValue.init f v false = Except.ok ⟨f, v⟩ :=
          foreignFieldValue_init_eq_ok hnn
        rw [processFields_cons_supplied hk, if_pos hfor, hco]
        exact ih (dinsert inst0 fname (PyObj.foreignFieldValueObj ⟨f, v⟩)) hnd.2
          (nodup_keys_dremove hkwnd fname) hok2 hkw2
      · have hco : _FieldValue.init f v false = Except.ok ⟨f, v⟩ :=
          fieldValue_init_eq_ok hnn
        rw [processFields_cons_supplied hk, if_neg hfor, hco]
        exact ih (dinsert inst0 fname (PyObj.fieldValueObj ⟨f, v⟩)) hnd.2
          (nodup_keys_dremove hkwnd fname) hok2 hkw2
    | none =>
      have hres : resolvedValue kwargs fname f = f.default := by
        simp [resolvedValue, hk]
      have hnn : ¬(f.default = Value.none ∧ f.allow_null = false) := by
        have h0 := containerOk_not_null hokf
        rw [hres] at h0
        exact h0
      have hok2 : ∀ q ∈ rest, containerOk kwargs q.1 q.2 = true := fun q hq =>
        hok q (List.mem_cons_of_mem _ hq)
      have hkw2 : ∀ q ∈ kwargs, (dlookup rest q.1).isSome := by
        intro q hq
        have hqne : ¬ q.1 = fname := (dlookup_eq_none kwargs fname).mp hk q hq
        have hq2 := hkw q hq
        rw [dlookup_cons_ne hqne] at hq2
        exact hq2
      by_cases hfor : f.cls.isForeign
      · have hco : ForeignFieldValue.init f Value.none true = Except.ok ⟨f, f.default⟩ :=
          foreignFieldValue_init_eq_ok hnn
        rw [processFields_cons_omitted hk, if_pos hfor, hco]
        exact ih (dinsert inst0 fname (PyObj.foreignFieldValueObj ⟨f, f.default⟩)) hnd.2
          hkwnd hok2 hkw2
      · have hco : _FieldValue.init f Value.none true = Except.ok ⟨f, f.default⟩ :=
          fieldValue_init_eq_ok hnn
        rw [processFields_cons_omitted hk, if_neg hfor, hco]
        exact ih (dinsert inst0 fname (PyObj.fieldValueObj ⟨f, f.default⟩)) hnd.2
          hkwnd hok2 hkw2

theorem tableInit_ok {fields : List (String × Field)} {kwargs : List (String × Value)}
    (count : Nat)
    (hnd : (fields.map Prod.fst).Nodup) (hkwnd : (kwargs.map Prod.fst).Nodup)
    (hok : ∀ p ∈ fields, containerOk kwargs p.1 p.2 = true)
    (hkw : ∀ q ∈ kwargs, (dlookup fields q.1).isSome) :
    ∃ inst, Table.init fields count [] kwargs = (Except.ok inst, count + 1) := by
  obtain ⟨inst, hp⟩ := processFields_ok_total [] hnd hkwnd hok hkw
  exact ⟨inst, by simp [Table.init, hp]⟩

theorem tableInit_ok_inv {fields : List (String × Field)}
    {kwargs : List (String × Value)} {count : Nat} {inst : List (String × PyObj)}
    (h : (Table.init fields count [] kwargs).1 = Except.ok inst) :
    processFields fields [] kwargs = Except.ok (inst, []) := by
  cases hp : processFields fields [] kwargs with
  | error e =>
    simp only [Table.init] at h
    rw [hp] at h
    simp at h
  | ok pr =>
    obtain ⟨i, lo⟩ := pr
    cases lo with
    | nil =>
      simp only [Table.init] at h
      rw [hp] at h
      simp at h
      rw [h]
    | cons q qs =>
      simp only [Table.init] at h
      rw [hp] at h
      simp at h

/-! ### Concrete entity types used by counterexamples and witnesses -/

/-- The `Table` base class as a class value (identity 0). -/
def TableCls : TableClass := ⟨0, Table_fields, []⟩

/-- `name = TextField(default="anon", allow_null=False)` of the spec scenario. -/
def nameField : Field := _Field.init .textField (Value.str "anon") false false

/-- `age = IntegerField(default=0)` of the spec scenario. -/
def ageField : Field := _Field.init .integerField (Value.int 0) true false

/-- The class body of `Person(Table)`. -/
def PersonAttrs : List (String × ClassAttr) :=
  [("name", ClassAttr.field nameField), ("age", ClassAttr.field ageField)]

/-- The resolved field set of `Person`. -/
def Person_fields : List (String × Field) := resolveFields [TableCls] PersonAttrs

/-- The `Person` entity class (identity 1). -/
def PersonCls : TableClass := ⟨1, Person_fields, []⟩

/-- A redeclared `age` descriptor for a `Dog(Person)` subtype. -/
def dogAgeField : Field := _Field.init .integerField (Value.int 7) true false

/-- The class body of `Dog(Person)`. -/
def DogAttrs : List (String × ClassAttr) := [("age", ClassAttr.field dogAgeField)]

/-- `owner = OneToOneField(Person)` (nullable, no default, identity 5). -/
def ownerField : Field := _ForeignField.init .oneToOneField 1 Value.none true 5

/-- The resolved field set of a `Profile(Table)` entity declaring `owner`. -/
def Profile_fields : List (String × Field) :=
  resolveFields [TableCls] [("owner", ClassAttr.field ownerField)]

/-- The instance dict produced by `Profile(owner=ref 7)`. -/
def profileInst : List (String × PyObj) :=
  [("_id", PyObj.fieldValueObj ⟨idField, Value.none⟩),
   ("owner", PyObj.foreignFieldValueObj ⟨ownerField, Value.ref 7⟩)]

/-- `rel = ManyToOneField(Person)` (nullable, no default, identity 5). -/
def relField : Field := _ForeignField.init .manyToOneField 1 Value.none true 5

/-- The resolved field set of an `RBase(Table)` entity declaring `rel`. -/
def RBase_fields : List (String × Field) :=
  resolveFields [TableCls] [("rel", ClassAttr.field relField)]

/-- The `RBase` entity class (identity 1). -/
def RBaseCls : TableClass := ⟨1, RBase_fields, []⟩

/-- Schema state after `RBase` was defined: next identity 2, and the source
slot of descriptor 5 bound to `RBase` itself. -/
def st0 : SchemaState := ⟨2, [(5, 1)]⟩

/-! ### Claim theorems -/

/-- C5: for every field descriptor (any kind, scalar or relation) with
`allow_null=false`, if the value resolved during container construction (the
caller value, or the default when `use_default` is set) is null, both
container constructors fail with the instance-level
`NullConstraintException` (the null-constraint violation of the spec); this
check inside the two container constructors is where null constraints on
instance data are enforced. -/
theorem c5_null_constraint_violation (f : Field) (value : Value) (use_default : Bool)
    (hnull : f.allow_null = false)
    (hres : (if use_default then f.default else value) = Value.none) :
    _FieldValue.init f value use_default
      = Except.error (PyErr.nullConstraintSet f.cls) ∧
    ForeignFieldValue.init f value use_default
      = Except.error (PyErr.nullConstraintSet f.cls) := by
  constructor
  · simp only [_FieldValue.init]
    rw [if_pos ⟨hres, hnull⟩]
  · simp only [ForeignFieldValue.init]
    rw [if_pos ⟨hres, hnull⟩]

/-- Witness for C5: the strict text field with a null caller value. -/
theorem c5_null_constraint_violation_witness :
    (nameField.allow_null = false ∧
      (if false then nameField.default else Value.none) = Value.none) ∧
    _FieldValue.init nameField Value.none false
      = Except.error (PyErr.nullConstraintSet nameField.cls) ∧
    ForeignFieldValue.init nameField Value.none false
      = Except.error (PyErr.nullConstraintSet nameField.cls) := by
  refine ⟨⟨by decide, by decide⟩, ?_⟩
  exact c5_null_constraint_violation nameField Value.none false (by decide) (by decide)

/-- C6: each of the four relation descriptor constructors, called with
`allow_null=false` and no default (`None`), fails at descriptor-construction
time with the declaration-time `NullConstraintException` (the spec kind
`ConstraintDefinitionError`), before any entity instance exists. -/
theorem c6_relation_definition_error (other fid : Nat) :
    OneToOneField other Value.none false fid
      = Except.error (PyErr.nullConstraintDefault FieldCls.oneToOneField) ∧
    OneToManyField other Value.none false fid
      = Except.error (PyErr.nullConstraintDefault FieldCls.oneToManyField) ∧
    ManyToOneField other Value.none false fid
      = Except.error (PyErr.nullConstraintDefault FieldCls.manyToOneField) ∧
    ManyToManyField other Value.none false fid
      = Except.error (PyErr.nullConstraintDefault FieldCls.manyToManyField) :=
  ⟨rfl, rfl, rfl, rfl⟩

/-- C7: every scalar descriptor constructor accepts `allow_null=false` with
no default and returns the descriptor unchanged: the declaration-time
"null forbidden requires a default" check exists only on the four relation
kinds, never on the scalar kinds. -/
theorem c7_scalar_no_declaration_check (u : Bool) :
    TextField Value.none false u
      = Except.ok (_Field.init FieldCls.textField Value.none false u) ∧
    IntegerField Value.none false u
      = Except.ok (_Field.init FieldCls.integerField Value.none false u) ∧
    RealField Value.none false u
      = Except.ok (_Field.init FieldCls.realField Value.none false u) ∧
    DateField Value.none false u
      = Except.ok (_Field.init FieldCls.dateField Value.none false u) ∧
    DateTimeField Value.none false u
      = Except.ok (_Field.init FieldCls.dateTimeField Value.none false u) :=
  ⟨rfl, rfl, rfl, rfl, rfl⟩

/-- C9: every construction attempt leaves the per-entity-type counter at
`count + 1`, whatever the outcome: success, positional-argument error,
null-constraint error, or the unknown-field path; the increment happens
first and is never rolled back. -/
theorem c9_counter_always_incremented (fields : List (String × Field))
    (count : Nat) (args : List Value) (kwargs : List (String × Value)) :
    (Table.init fields count args kwargs).2 = count + 1 := by
  cases args with
  | cons a as => rfl
  | nil =>
    cases hp : processFields fields [] kwargs with
    | error e => simp [Table.init, hp]
    | ok pr =>
      obtain ⟨i, lo⟩ := pr
      cases lo with
      | nil => simp [Table.init, hp]
      | cons q qs => simp [Table.init, hp]

/-- C2 (code bug): constructing the base entity type with the unknown
keyword `nickname` does fail after all known fields are processed, but with
the interpreter `TypeError` from subscripting the `dict_keys` view on line
166 — not with an error naming a leftover key: the `AttributeError`
message that was meant to name the key is never built.  The counter is
still incremented. -/
theorem c2_unknown_field_raises_type_error :
    Table.init Table_fields 0 [] [("nickname", Value.str "x")]
      = (Except.error PyErr.typeErrorDictKeysNotSubscriptable, 1) := rfl

/-- C1 counterexample: on a constructed instance with the relation field
`owner` holding `ref 7`, the attribute read returns the `ForeignFieldValue`
container object itself — not the wrapped value `ref 7` the claim requires
for every field — because `ForeignFieldValue` is not a subclass of
`_FieldValue`, so the unwrap in `__getattribute__` does not fire. -/
theorem c1_counterexample :
    (Table.init Profile_fields 0 [] [("owner", Value.ref 7)]).1
      = Except.ok profileInst ∧
    Table.getattribute profileInst [] "owner"
      = some (PyObj.foreignFieldValueObj ⟨ownerField, Value.ref 7⟩) ∧
    some (PyObj.foreignFieldValueObj ⟨ownerField, Value.ref 7⟩)
      ≠ some (PyObj.val (Value.ref 7)) := by
  refine ⟨rfl, rfl, by decide⟩

/-- C1 (amended): on every constructed instance, reading a scalar field
(including the implicit `_id`) yields the wrapped value of its
`_FieldValue` container; reading a relation field yields the
`ForeignFieldValue` container object itself, not its wrapped value; reading
a non-field attribute yields it unchanged. -/
theorem c1_attribute_read (fields : List (String × Field))
    (clsAttrs : List (String × PyObj)) (kwargs : List (String × Value))
    (count : Nat) (inst : List (String × PyObj))
    (hnd : (fields.map Prod.fst).Nodup) (hkwnd : (kwargs.map Prod.fst).Nodup)
    (hinit : (Table.init fields count [] kwargs).1 = Except.ok inst) :
    (∀ n f, dlookup fields n = some f → f.cls.isForeign = false →
      Table.getattribute inst clsAttrs n
        = some (PyObj.val (resolvedValue kwargs n f))) ∧
    (∀ n f, dlookup fields n = some f → f.cls.isForeign = true →
      Table.getattribute inst clsAttrs n
        = some (PyObj.foreignFieldValueObj ⟨f, resolvedValue kwargs n f⟩)) ∧
    (∀ m o, dlookup fields m = Option.none → dlookup clsAttrs m = some o →
      (∀ c, o ≠ PyObj.fieldValueObj c) →
      Table.getattribute inst clsAttrs m = some o) := by
  have hpf := tableInit_ok_inv hinit
  refine ⟨?_, ?_, ?_⟩
  · intro n f hf hsc
    have h1 := processFields_ok_lookup hnd hkwnd hpf n
    rw [hf] at h1
    have h2 : dlookup inst n = some (expectedObj kwargs n f) := h1
    simp [Table.getattribute, h2, expectedObj, hsc, unwrapFieldValue]
  · intro n f hf hsc
    have h1 := processFields_ok_lookup hnd hkwnd hpf n
    rw [hf] at h1
    have h2 : dlookup inst n = some (expectedObj kwargs n f) := h1
    simp [Table.getattribute, h2, expectedObj, hsc, unwrapFieldValue]
  · intro m o hm ho hnotc
    have h1 := processFields_ok_lookup hnd hkwnd hpf m
    rw [hm] at h1
    have h3 : dlookup inst m = Option.none := h1
    cases o with
    | val v => simp [Table.getattribute, h3, ho, unwrapFieldValue]
    | fieldValueObj c => exact absurd rfl (hnotc c)
    | foreignFieldValueObj c => simp [Table.getattribute, h3, ho, unwrapFieldValue]

/-- Witness for C1 (amended): the `Profile(owner=ref 7)` instance, whose
scalar `_id` reads back unwrapped and whose relation `owner` reads back as
the container object. -/
theorem c1_attribute_read_witness :
    ((Profile_fields.map Prod.fst).Nodup ∧
      (([("owner", Value.ref 7)] : List (String × Value)).map Prod.fst).Nodup ∧
      (Table.init Profile_fields 0 [] [("owner", Value.ref 7)]).1
        = Except.ok profileInst) ∧
    Table.getattribute profileInst [] "_id" = some (PyObj.val Value.none) ∧
    Table.getattribute profileInst [] "owner"
      = some (PyObj.foreignFieldValueObj ⟨ownerField, Value.ref 7⟩) := by
  have h := c1_attribute_read Profile_fields [] [("owner", Value.ref 7)] 0 profileInst
    (by decide) (by decide) rfl
  refine ⟨⟨by decide, by decide, rfl⟩, ?_, ?_⟩
  · exact (h.1 "_id" idField (by decide) (by decide)).trans rfl
  · exact (h.2.1 "owner" ownerField (by decide) (by decide)).trans rfl

/-- C3 counterexample: `Person` declares the field `name`; a subtype whose
class body rebinds `name` to a non-field value loses `name` from its
resolved field set entirely, so the resolved set does not contain every
ancestor field name. -/
theorem c3_counterexample :
    dlookup Person_fields "name" = some nameField ∧
    dlookup (resolveFields [PersonCls]
      [("name", ClassAttr.plain (PyObj.val (Value.int 5)))]) "name"
        = Option.none := by
  exact ⟨rfl, rfl⟩

/-- C3 (amended): provided a colliding name is declared as a field (not
shadowed by a non-field attribute of the more specific type), the resolved
field set behaves as claimed: an own field declaration always wins; a name
the class body does not mention resolves to the merge of the base field
sets; and in that merge the last base declaring the name wins, while bases
not declaring it leave the earlier merge untouched. -/
theorem c3_resolved_field_set (bases : List TableClass)
    (attrs : List (String × ClassAttr)) (n : String)
    (hnd : (attrs.map Prod.fst).Nodup) :
    (∀ f, dlookup attrs n = some (ClassAttr.field f) →
      dlookup (resolveFields bases attrs) n = some f) ∧
    (dlookup attrs n = Option.none →
      dlookup (resolveFields bases attrs) n = dlookup (mergeBaseFields bases) n) ∧
    (∀ bs b f, bases = bs ++ [b] → (b.fields.map Prod.fst).Nodup →
      dlookup b.fields n = some f →
      dlookup (mergeBaseFields bases) n = some f) ∧
    (∀ bs b, bases = bs ++ [b] → (b.fields.map Prod.fst).Nodup →
      dlookup b.fields n = Option.none →
      dlookup (mergeBaseFields bases) n = dlookup (mergeBaseFields bs) n) := by
  refine ⟨?_, ?_, ?_, ?_⟩
  · intro f hf
    have h1 := dlookup_resolveFields bases attrs hnd n
    rw [hf] at h1
    exact h1
  · intro hf
    have h1 := dlookup_resolveFields bases attrs hnd n
    rw [hf] at h1
    exact h1
  · intro bs b f hb hnodb hlook
    subst hb
    rw [mergeBaseFields_append, dlookup_dmerge _ _ _ hnodb, hlook]
    rfl
  · intro bs b hb hnodb hlook
    subst hb
    rw [mergeBaseFields_append, dlookup_dmerge _ _ _ hnodb, hlook]
    rfl

/-- Witness for C3 (amended): `Dog(Person)` redeclares `age` and inherits
`name`. -/
theorem c3_resolved_field_set_witness :
    (DogAttrs.map Prod.fst).Nodup ∧
    dlookup (resolveFields [PersonCls] DogAttrs) "age" = some dogAgeField ∧
    dlookup (resolveFields [PersonCls] DogAttrs) "name" = some nameField := by
  refine ⟨by decide, ?_, ?_⟩
  · exact (c3_resolved_field_set [PersonCls] DogAttrs "age" (by decide)).1
      dogAgeField rfl
  · exact ((c3_resolved_field_set [PersonCls] DogAttrs "name" (by decide)).2.1
      rfl).trans rfl

/-- C4: a relation descriptor inherited unchanged from a base entity type
into a subtype is present unchanged in the subtype resolved field set, and
after the subtype is defined its bound source-entity reference equals the
subtype (a fresh class identity, distinct from the declaring ancestor). -/
theorem c4_inherited_relation_rebound (st : SchemaState) (base : TableClass)
    (attrs : List (String × ClassAttr)) (n : String) (f : Field)
    (hnd : (attrs.map Prod.fst).Nodup)
    (hbnd : (base.fields.map Prod.fst).Nodup)
    (hbase : dlookup base.fields n = some f)
    (hforeign : f.cls.isForeign = true)
    (hinherit : dlookup attrs n = Option.none)
    (hfresh : base.cid ≠ st.nextCid) :
    dlookup (defineClass st [base] attrs).2.fields n = some f ∧
    dlookup (defineClass st [base] attrs).1.sources f.fid
      = some (defineClass st [base] attrs).2.cid ∧
    (defineClass st [base] attrs).2.cid ≠ base.cid := by
  have hres : dlookup (resolveFields [base] attrs) n = some f := by
    have h1 := dlookup_resolveFields [base] attrs hnd n
    rw [hinherit] at h1
    rw [h1]
    have h2 : mergeBaseFields [base] = dmerge [] base.fields := rfl
    rw [h2, dlookup_dmerge _ _ _ hbnd, hbase]
    rfl
  refine ⟨hres, ?_, ?_⟩
  · have hmem : (n, f) ∈ resolveFields [base] attrs := dlookup_mem hres
    exact dlookup_bindSources_of_mem hmem hforeign _ _
  · exact fun e => hfresh (Eq.symm e)

/-- Witness for C4: a subtype of `RBase` inheriting `rel` unchanged;
after the subtype definition the source slot of descriptor 5 holds the
subtype identity 2, not the ancestor identity 1. -/
theorem c4_inherited_relation_rebound_witness :
    ((([] : List (String × ClassAttr)).map Prod.fst).Nodup ∧
      (RBase_fields.map Prod.fst).Nodup ∧
      dlookup RBase_fields "rel" = some relField ∧
      relField.cls.isForeign = true ∧
      dlookup ([] : List (String × ClassAttr)) "rel" = Option.none ∧
      RBaseCls.cid ≠ st0.nextCid) ∧
    dlookup (defineClass st0 [RBaseCls] []).2.fields "rel" = some relField ∧
    dlookup (defineClass st0 [RBaseCls] []).1.sources relField.fid
      = some (defineClass st0 [RBaseCls] []).2.cid ∧
    (defineClass st0 [RBaseCls] []).2.cid ≠ RBaseCls.cid := by
  refine ⟨⟨by decide, by decide, rfl, rfl, rfl, by decide⟩, ?_⟩
  exact c4_inherited_relation_rebound st0 RBaseCls [] "rel" relField (by decide)
    (by decide) rfl rfl rfl (by decide)

/-- C10: a relation descriptor is aliased (same identity `fid`) into the
resolved field set of the declaring type and of every inheriting subtype;
each subtype definition calls `set_source` on that shared object, so after
two subtypes inherit it in turn, the descriptor that the resolved field set of the base type still maps the name to reports the most recently defined
inheriting subtype — not the base, and not the earlier subtype — as its
source entity. -/
theorem c10_shared_descriptor_rebound (st : SchemaState) (base : TableClass)
    (attrs1 attrs2 : List (String × ClassAttr)) (n : String) (f : Field)
    (h1nd : (attrs1.map Prod.fst).Nodup) (h2nd : (attrs2.map Prod.fst).Nodup)
    (hbnd : (base.fields.map Prod.fst).Nodup)
    (hbase : dlookup base.fields n = some f)
    (hforeign : f.cls.isForeign = true)
    (h1 : dlookup attrs1 n = Option.none) (h2 : dlookup attrs2 n = Option.none)
    (hfresh : base.cid ≠ st.nextCid + 1) :
    dlookup base.fields n = some f ∧
    dlookup (defineClass (defineClass st [base] attrs1).1 [base] attrs2).2.fields n
      = some f ∧
    dlookup (defineClass (defineClass st [base] attrs1).1 [base] attrs2).1.sources
        f.fid
      = some (defineClass (defineClass st [base] attrs1).1 [base] attrs2).2.cid ∧
    (defineClass (defineClass st [base] attrs1).1 [base] attrs2).2.cid ≠ base.cid ∧
    (defineClass (defineClass st [base] attrs1).1 [base] attrs2).2.cid
      ≠ (defineClass st [base] attrs1).2.cid := by
  have hres : dlookup (resolveFields [base] attrs2) n = some f := by
    have hl := dlookup_resolveFields [base] attrs2 h2nd n
    rw [h2] at hl
    rw [hl]
    have he : mergeBaseFields [base] = dmerge [] base.fields := rfl
    rw [he, dlookup_dmerge _ _ _ hbnd, hbase]
    rfl
  refine ⟨hbase, hres, ?_, ?_, ?_⟩
  · have hmem : (n, f) ∈ resolveFields [base] attrs2 := dlookup_mem hres
    exact dlookup_bindSources_of_mem hmem hforeign _ _
  · exact fun e => hfresh (Eq.symm e)
  · exact Nat.succ_ne_self st.nextCid

/-- Witness for C10: two successive subtypes of `RBase` both inheriting
`rel`; the shared descriptor 5 ends bound to the second subtype
(identity 3). -/
theorem c10_shared_descriptor_rebound_witness :
    ((RBase_fields.map Prod.fst).Nodup ∧
      dlookup RBase_fields "rel" = some relField ∧
      relField.cls.isForeign = true ∧
      RBaseCls.cid ≠ st0.nextCid + 1) ∧
    dlookup (defineClass (defineClass st0 [RBaseCls] []).1 [RBaseCls] []).2.fields
        "rel" = some relField ∧
    dlookup (defineClass (defineClass st0 [RBaseCls] []).1 [RBaseCls] []).1.sources
        relField.fid
      = some (defineClass (defineClass st0 [RBaseCls] []).1 [RBaseCls] []).2.cid ∧
    (defineClass (defineClass st0 [RBaseCls] []).1 [RBaseCls] []).2.cid
      ≠ RBaseCls.cid ∧
    (defineClass (defineClass st0 [RBaseCls] []).1 [RBaseCls] []).2.cid
      ≠ (defineClass st0 [RBaseCls] []).2.cid := by
  refine ⟨⟨by decide, rfl, rfl, by decide⟩, ?_⟩
  exact (c10_shared_descriptor_rebound st0 RBaseCls [] [] "rel" relField
    (by decide) (by decide) (by decide) rfl rfl rfl rfl (by decide)).2

/-- C8: a scalar field with `allow_null=false` and a non-null default,
omitted from the keyword arguments, lets construction succeed (given the
other supplied arguments are well-formed), and reading that field on the
resulting instance yields the descriptor default. -/
theorem c8_scalar_default_readback (fields : List (String × Field))
    (kwargs : List (String × Value)) (count : Nat) (n : String) (f : Field)
    (hnd : (fields.map Prod.fst).Nodup) (hkwnd : (kwargs.map Prod.fst).Nodup)
    (hf : dlookup fields n = some f)
    (hscalar : f.cls.isForeign = false)
    (hnull : f.allow_null = false) (hdef : f.default ≠ Value.none)
    (homit : dlookup kwargs n = Option.none)
    (hok : ∀ p ∈ fields, p.1 ≠ n → containerOk kwargs p.1 p.2 = true)
    (hkw : ∀ q ∈ kwargs, (dlookup fields q.1).isSome) :
    ∃ inst, Table.init fields count [] kwargs = (Except.ok inst, count + 1) ∧
      Table.getattribute inst [] n = some (PyObj.val f.default) := by
  have hokall : ∀ p ∈ fields, containerOk kwargs p.1 p.2 = true := by
    intro p hp
    by_cases hpn : p.1 = n
    · have hlk : dlookup fields p.1 = some p.2 := dlookup_of_mem_nodup hnd hp
      rw [hpn, hf] at hlk
      injection hlk with hlk
      rw [hpn, ← hlk, containerOk]
      have hrv : resolvedValue kwargs n f = f.default := by
        simp [resolvedValue, homit]
      rw [hrv, if_neg hdef]
    · exact hok p hp hpn
  obtain ⟨inst, hinit⟩ := tableInit_ok count hnd hkwnd hokall hkw
  refine ⟨inst, hinit, ?_⟩
  have hpf := tableInit_ok_inv (show (Table.init fields count [] kwargs).1
    = Except.ok inst by rw [hinit])
  have h1 := processFields_ok_lookup hnd hkwnd hpf n
  rw [hf] at h1
  have h2 : dlookup inst n = some (expectedObj kwargs n f) := h1
  simp [Table.getattribute, h2, expectedObj, hscalar, unwrapFieldValue,
    resolvedValue, homit]

/-- Witness for C8: `Person(age=5)` omits the strict `name` field; the
construction succeeds and `name` reads back as the default `"anon"`. -/
theorem c8_scalar_default_readback_witness :
    ((Person_fields.map Prod.fst).Nodup ∧
      dlookup Person_fields "name" = some nameField ∧
      nameField.cls.isForeign = false ∧
      nameField.allow_null = false ∧
      nameField.default ≠ Value.none ∧
      dlookup [("age", Value.int 5)] "name" = Option.none ∧
      (∀ p ∈ Person_fields, p.1 ≠ "name" →
        containerOk [("age", Value.int 5)] p.1 p.2 = true) ∧
      (∀ q ∈ ([("age", Value.int 5)] : List (String × Value)),
        (dlookup Person_fields q.1).isSome)) ∧
    ∃ inst, Table.init Person_fields 0 [] [("age", Value.int 5)]
        = (Except.ok inst, 1) ∧
      Table.getattribute inst [] "name" = some (PyObj.val (Value.str "anon")) := by
  refine ⟨⟨by decide, rfl, rfl, rfl, by decide, rfl, by decide, by decide⟩, ?_⟩
  exact c8_scalar_default_readback Person_fields [("age", Value.int 5)] 0 "name"
    nameField (by decide) (by decide) rfl rfl rfl (by decide) rfl (by decide)
    (by decide)

end DataBase
